import Mathlib

/-!
# Verification of the SGLang All2All plan/exchange data structures

Shallow embedding of `sgl-kernel`'s custom all-to-all exchange primitive
(`trt_llm` namespace): the `All2AllParams` / `All2AllPlanParams` parameter
structures declared in the header under verification, together with the
plan-stage offset computation, the round/block schedule, and the
generation-tagged barrier exchange protocol those structures describe.

The header in the repository declares only the parameter structures and the
constant `MAX_ALL_TO_ALL_BLOCKS`; the plan and exchange kernels themselves
are declared elsewhere.  Where a definition embeds code that is not present
in the header, its doc comment says `Modelled from the spec:` and names the
missing piece.
-/

namespace TrtLlm

/-- `constexpr size_t MAX_ALL_TO_ALL_BLOCKS = 64;` (header, line 43). -/
def MAX_ALL_TO_ALL_BLOCKS : ℕ := 64

/-- Modelled from the spec: `MAX_RANKS_PER_NODE` is declared in
`trt_reduce_internal.cuh`, which is not part of the sources under
verification; the single-node deployment described by the spec uses 8 GPUs
per node, the value used by the referenced TensorRT-LLM code. -/
def MAX_RANKS_PER_NODE : ℕ := 8

/-- The modulus of the C type `uint32_t`, the type of the `barrier_flag`
field in both parameter structures. -/
def UINT32_MOD : ℕ := 2 ^ 32

/-- Storing a generation counter into a `uint32_t` field keeps only its
value modulo `2^32`. -/
def storeBarrierFlag (g : ℕ) : ℕ := g % UINT32_MOD

/-- Embedding of `struct All2AllParams` (header, lines 45-66).  `int64_t`
fields become `ℤ`; the `uint32_t` field `barrier_flag` is a natural number
below `2^32`, written through `storeBarrierFlag`; raw device-pointer fields
(`buffer_meta_ptrs`, `peer_barrier_ptrs_in/out`, `peer_comm_buffer_ptrs`,
the local buffer pointers and `plan_meta_ptr`) are modelled as abstract
addresses, with the memory they point to passed explicitly to the protocol
functions below. -/
structure All2AllParams where
  elts_size : ℤ
  /-- for sync input -/
  elts_per_block : ℤ
  /-- for output -/
  elts_per_block_per_round : ℤ
  round_count : ℤ
  elts_per_round : ℤ
  rank : ℤ
  local_rank : ℤ
  ranks_per_node : ℤ
  barrier_flag : ℕ
  /-- current rank output_split_sizes read by other rank -/
  buffer_meta_ptrs : Fin MAX_RANKS_PER_NODE → ℕ
  peer_barrier_ptrs_in : Fin MAX_RANKS_PER_NODE → ℕ
  peer_barrier_ptrs_out : Fin MAX_RANKS_PER_NODE → ℕ
  peer_comm_buffer_ptrs : ℕ
  local_output_buffer_ptr : ℕ
  local_input_buffer_ptr : ℕ
  plan_meta_ptr : ℕ
  is_capturing : Bool
  /-- 572 or 512 -/
  block_size : ℤ
  output_elts_total : ℤ
  input_elts_total : ℤ

/-- Embedding of `struct All2AllPlanParams` (header, lines 68-86), with the
same conventions as `All2AllParams`; the split-size and split-offset tables
(`int64_t*` arrays of `ranks_per_node` entries) are modelled as lists. -/
structure All2AllPlanParams where
  elts_size : ℤ
  rank : ℤ
  local_rank : ℤ
  ranks_per_node : ℤ
  barrier_flag : ℕ
  /-- current rank output_split_sizes read by other rank -/
  buffer_meta_ptrs : Fin MAX_RANKS_PER_NODE → ℕ
  peer_barrier_ptrs_in : Fin MAX_RANKS_PER_NODE → ℕ
  peer_barrier_ptrs_out : Fin MAX_RANKS_PER_NODE → ℕ
  peer_comm_buffer_ptrs : ℕ
  output_split_sizes : List ℕ
  input_split_sizes : List ℕ
  output_split_offsets : List ℕ
  input_split_offsets : List ℕ
  plan_meta_ptr : ℕ
  /-- 16*572 or 16*512 -/
  block_size : ℤ
  output_elts_total : ℤ
  input_elts_total : ℤ

/-- Writing a generation value into the `uint32_t` `barrier_flag` field of
an `All2AllParams`. -/
def All2AllParams.setBarrierFlag (p : All2AllParams) (g : ℕ) : All2AllParams :=
  { p with barrier_flag := storeBarrierFlag g }

/-- Writing a generation value into the `uint32_t` `barrier_flag` field of
an `All2AllPlanParams`. -/
def All2AllPlanParams.setBarrierFlag (p : All2AllPlanParams) (g : ℕ) : All2AllPlanParams :=
  { p with barrier_flag := storeBarrierFlag g }

/-! ## Plan stage -/

/-- The exclusive prefix sums of a split-size vector: entry `i` is the sum
of the sizes before index `i`, so entry `0` is `0`. -/
def exclusivePrefixSums (sizes : List ℕ) : List ℕ :=
  (List.range sizes.length).map fun i => (sizes.take i).sum

/-- Errors the plan stage can report to the caller (spec §7): configuration
errors (mismatched split-size sums, rank count beyond the fixed maximum,
non-dividing block/round sizes) and capacity errors (block count beyond
`MAX_ALL_TO_ALL_BLOCKS`). -/
inductive PlanError where
  | configError : PlanError
  | capacityError : PlanError
deriving DecidableEq, Repr

/-- Modelled from the spec: the validation the plan stage performs on a
plan request before touching any peer memory — the split-size vectors have
exactly `ranks_per_node` entries, the rank count is between 1 and the fixed
maximum, and each split-size vector sums to the corresponding declared
total element count. -/
def planRequestValid (ranks_per_node : ℕ) (output_split_sizes input_split_sizes : List ℕ)
    (output_elts_total input_elts_total : ℕ) : Bool :=
  1 ≤ ranks_per_node && ranks_per_node ≤ MAX_RANKS_PER_NODE &&
  output_split_sizes.length == ranks_per_node &&
  input_split_sizes.length == ranks_per_node &&
  output_split_sizes.sum == output_elts_total &&
  input_split_sizes.sum == input_elts_total

/-- Modelled from the spec: the offset-computation part of the plan stage
(the plan kernel itself is declared outside the header under verification).
It validates the request and, on success, fills `output_split_offsets` and
`input_split_offsets` with the exclusive prefix sums of the corresponding
split sizes; a failed validation is a configuration error reported to the
caller. -/
def planOffsets (ranks_per_node : ℕ) (output_split_sizes input_split_sizes : List ℕ)
    (output_elts_total input_elts_total : ℕ) : Except PlanError (List ℕ × List ℕ) :=
  if planRequestValid ranks_per_node output_split_sizes input_split_sizes
      output_elts_total input_elts_total then
    .ok (exclusivePrefixSums output_split_sizes, exclusivePrefixSums input_split_sizes)
  else
    .error .configError

/-- The round/block schedule the plan stage resolves: how many rounds tile
the output, how many elements each round moves on the output and input
sides, the per-block quotas (`elts_per_block` for the input side,
`elts_per_block_per_round` for the output side, as in `All2AllParams`), and
the number of device blocks used. -/
structure Schedule where
  round_count : ℕ
  elts_per_round : ℕ
  input_elts_per_round : ℕ
  elts_per_block : ℕ
  elts_per_block_per_round : ℕ
  block_count : ℕ
deriving DecidableEq, Repr

/-- Modelled from the spec: the round/block schedule construction (the
scheduling code is declared outside the header under verification).  Given
the totals, the per-block element quota `block_size` and a requested round
count, it divides the output into `round_count` rounds of `elts_per_round`
elements; non-dividing block/round sizes are configuration errors, and a
block count beyond `MAX_ALL_TO_ALL_BLOCKS` is a capacity error — both
detected at schedule-construction time, with no partial mode. -/
def makeSchedule (output_elts_total input_elts_total block_size round_count : ℕ) :
    Except PlanError Schedule :=
  if round_count == 0 || block_size == 0 then .error .configError
  else
    let elts_per_round := output_elts_total / round_count
    let input_elts_per_round := input_elts_total / round_count
    if round_count * elts_per_round != output_elts_total then .error .configError
    else if round_count * input_elts_per_round != input_elts_total then .error .configError
    else
      let block_count := elts_per_round / block_size
      if block_count * block_size != elts_per_round then .error .configError
      else if MAX_ALL_TO_ALL_BLOCKS < block_count then .error .capacityError
      else if block_count == 0 then
        .ok { round_count := round_count, elts_per_round := 0,
              input_elts_per_round := input_elts_per_round,
              elts_per_block := input_elts_per_round,
              elts_per_block_per_round := block_size, block_count := 0 }
      else
        let elts_per_block := input_elts_per_round / block_count
        if elts_per_block * block_count != input_elts_per_round then .error .configError
        else
          .ok { round_count := round_count, elts_per_round := elts_per_round,
                input_elts_per_round := input_elts_per_round,
                elts_per_block := elts_per_block,
                elts_per_block_per_round := block_size, block_count := block_count }

/-- Modelled from the spec: the full plan stage for one rank (the plan
kernel is declared outside the header under verification).  It validates
the request and resolves offsets and schedule; only a fully validated
request publishes this rank's split-size vector into the metadata slot
other ranks read (`buffer_meta_ptrs[rank]`).  The second component records
every write the call performs into peer-visible memory, in order: a
rejected plan performs none. -/
def runPlan (ranks_per_node : ℕ) (output_split_sizes input_split_sizes : List ℕ)
    (output_elts_total input_elts_total block_size round_count buffer_meta_addr : ℕ) :
    Except PlanError ((List ℕ × List ℕ) × Schedule) × List (ℕ × ℕ) :=
  match planOffsets ranks_per_node output_split_sizes input_split_sizes
      output_elts_total input_elts_total with
  | .error e => (.error e, [])
  | .ok offsets =>
    match makeSchedule output_elts_total input_elts_total block_size round_count with
    | .error e => (.error e, [])
    | .ok sched =>
      (.ok (offsets, sched),
       (List.range output_split_sizes.length).map fun k =>
         (buffer_meta_addr + k, (output_split_sizes[k]?).getD 0))

/-! ## Exchange stage -/

/-- Modelled from the spec: the data plane of a full exchange over `r`
ranks.  `send i j` is the element sequence rank `i` sends rank `j` this
call; rank `i`'s local input buffer lays its per-destination slices out
contiguously at the input split offsets. -/
def inputBuffer (r : ℕ) (send : ℕ → ℕ → List ℤ) (i : ℕ) : List ℤ :=
  (List.range r).flatMap fun j => send i j

/-- Modelled from the spec: after a full exchange, rank `j`'s output
buffer holds each source rank's slice contiguously, source rank `i`'s
slice at the output split offset the plan computed for `i`. -/
def outputBuffer (r : ℕ) (send : ℕ → ℕ → List ℤ) (j : ℕ) : List ℤ :=
  (List.range r).flatMap fun i => send i j

/-- Rank `j`'s per-source receive sizes (its `output_split_sizes`). -/
def recvSizes (r : ℕ) (send : ℕ → ℕ → List ℤ) (j : ℕ) : List ℕ :=
  (List.range r).map fun i => (send i j).length

/-- Modelled from the spec: the peer waits one rank performs during an
exchange — one wait per other peer per round, none on itself. -/
def peerWaits (r rank round_count : ℕ) : List (ℕ × ℕ) :=
  (List.range round_count).flatMap fun rd =>
    ((List.range r).filter fun p => p != rank).map fun p => (p, rd)

/-- Modelled from the spec: a barrier slot `(peer, round)` holds the raw
generation value last written into it; a reader treats the slot as ready
for generation `gen` exactly when it observes that generation there. -/
def flagReady (mem : ℕ × ℕ → ℕ) (slot : ℕ × ℕ) (gen : ℕ) : Bool :=
  mem slot == gen

/-- Modelled from the spec: the signal phase — each participating rank
raises its generation-tagged flag for every round, overwriting whatever
earlier generation the persistent barrier memory held. -/
def signalFlags (r round_count gen : ℕ) (mem : ℕ × ℕ → ℕ) : ℕ × ℕ → ℕ :=
  fun s => if s.1 < r ∧ s.2 < round_count then gen else mem s

/-- Modelled from the spec: one call of the exchange at generation `gen`
on persistent barrier memory `mem`: every rank copies and signals; rank
`j`'s output becomes available (`some`) only once every (peer, round)
flag shows the current generation, and the call is still spinning
(`none`) otherwise.  Returns the output view and the barrier memory the
call leaves behind. -/
def runExchange (r round_count gen : ℕ) (mem : ℕ × ℕ → ℕ)
    (send : ℕ → ℕ → List ℤ) (j : ℕ) : Option (List ℤ) × (ℕ × ℕ → ℕ) :=
  let mem' := signalFlags r round_count gen mem
  (if (List.range r).all (fun p => (List.range round_count).all fun rd =>
        flagReady mem' (p, rd) gen) then
    some (outputBuffer r send j)
  else none, mem')

/-- Modelled from the spec: a consumer's view of the round-`rd` data from
peer `p` — visible only behind an observation of that peer's round-`rd`
flag at the current generation. -/
def consumerView (mem : ℕ × ℕ → ℕ) (gen p rd : ℕ) (data : List ℤ) : Option (List ℤ) :=
  if flagReady mem (p, rd) gen then some data else none

/-- The output-buffer element range round `rd` writes: consecutive rounds
use disjoint per-round offsets. -/
def roundRange (elts_per_round rd : ℕ) : Finset ℕ :=
  Finset.Ico (rd * elts_per_round) ((rd + 1) * elts_per_round)

/-- The documented per-block element quota of the exchange stage:
`int64_t block_size;  // 572 or 512` (header, line 63). -/
def exchangeBlockSize (largeBlock : Bool) : ℤ :=
  if largeBlock then 572 else 512

/-- The documented per-block element quota of the plan stage:
`int64_t block_size;  // 16*572 or 16*512` (header, line 83). -/
def planBlockSize (largeBlock : Bool) : ℤ :=
  if largeBlock then 16 * 572 else 16 * 512

/-- A matched plan/exchange parameter pair for the same call: both stages
carry the documented block size arising from the same configuration
choice. -/
def matchedBlockSizes (pp : All2AllPlanParams) (ep : All2AllParams) : Prop :=
  ∃ b : Bool, pp.block_size = planBlockSize b ∧ ep.block_size = exchangeBlockSize b

/-- Concrete exchange-stage parameters used to exhibit matched block
sizes. -/
def demoExchangeParams : All2AllParams where
  elts_size := 2
  elts_per_block := 512
  elts_per_block_per_round := 512
  round_count := 1
  elts_per_round := 512
  rank := 0
  local_rank := 0
  ranks_per_node := 1
  barrier_flag := 1
  buffer_meta_ptrs := fun _ => 0
  peer_barrier_ptrs_in := fun _ => 0
  peer_barrier_ptrs_out := fun _ => 0
  peer_comm_buffer_ptrs := 0
  local_output_buffer_ptr := 0
  local_input_buffer_ptr := 0
  plan_meta_ptr := 0
  is_capturing := false
  block_size := 512
  output_elts_total := 512
  input_elts_total := 512

/-- Concrete plan-stage parameters matching `demoExchangeParams`. -/
def demoPlanParams : All2AllPlanParams where
  elts_size := 2
  rank := 0
  local_rank := 0
  ranks_per_node := 1
  barrier_flag := 1
  buffer_meta_ptrs := fun _ => 0
  peer_barrier_ptrs_in := fun _ => 0
  peer_barrier_ptrs_out := fun _ => 0
  peer_comm_buffer_ptrs := 0
  output_split_sizes := [512]
  input_split_sizes := [512]
  output_split_offsets := [0]
  input_split_offsets := [0]
  plan_meta_ptr := 0
  block_size := 16 * 512
  output_elts_total := 512
  input_elts_total := 512

/-- The per-source send pattern of the spec's concrete scenario: every
rank `i` sends every destination the ten elements `i*100 + k`, `k < 10`. -/
def demoSend (i _j : ℕ) : List ℤ :=
  (List.range 10).map fun k => (i * 100 + k : ℤ)

/-! ## Helper lemmas -/

/-- Entry `i` of the exclusive prefix sums is the sum of the sizes before
index `i`. -/
theorem exclusivePrefixSums_getElem? (sizes : List ℕ) (i : ℕ) (h : i < sizes.length) :
    (exclusivePrefixSums sizes)[i]? = some ((sizes.take i).sum) := by
  simp [exclusivePrefixSums, List.getElem?_map, List.getElem?_range h]

/-- Dropping the total length of the first `i` slices from the
concatenation of `r` slices and keeping slice `i`'s length recovers slice
`i`. -/
theorem flatMap_range_drop_take (f : ℕ → List ℤ) (r i : ℕ) (h : i < r) :
    (((List.range r).flatMap f).drop
        (((List.range i).map fun k => (f k).length).sum)).take (f i).length = f i := by
  have hr : r = i + (r - i) := by omega
  rw [hr, List.range_add, List.flatMap_append]
  have hlen : ((List.range i).map fun k => (f k).length).sum
      = ((List.range i).flatMap f).length := (List.length_flatMap _ _).symm
  rw [hlen, List.drop_left]
  have hm : r - i = (r - i - 1) + 1 := by omega
  rw [hm, List.range_succ_eq_map]
  simp only [List.map_cons, List.flatMap_cons, Nat.add_zero]
  exact List.take_left _ _

/-! ## Claim theorems -/

/-- **C1.** For every valid split-size vector of length `ranks_per_node`
with `sum output_split_sizes = output_elts_total` (and likewise for
input), the plan stage computes `output_split_offsets` (and
`input_split_offsets`) equal to the exclusive prefix sums of the
corresponding split sizes, with `offsets[0] = 0`, and reports no
configuration error. -/
theorem planOffsets_exclusive_prefix_sums
    (r : ℕ) (oss iss : List ℕ) (ot it : ℕ)
    (hr1 : 1 ≤ r) (hr2 : r ≤ MAX_RANKS_PER_NODE)
    (hlo : oss.length = r) (hli : iss.length = r)
    (hso : oss.sum = ot) (hsi : iss.sum = it) :
    ∃ oOffs iOffs,
      planOffsets r oss iss ot it = .ok (oOffs, iOffs) ∧
      oOffs.length = r ∧ iOffs.length = r ∧
      (∀ i, i < r → oOffs[i]? = some ((oss.take i).sum)) ∧
      (∀ i, i < r → iOffs[i]? = some ((iss.take i).sum)) ∧
      oOffs[0]? = some 0 ∧ iOffs[0]? = some 0 := by
  have hv : planRequestValid r oss iss ot it = true := by
    simp [planRequestValid, hlo, hli, hso, hsi, hr1, hr2]
  refine ⟨exclusivePrefixSums oss, exclusivePrefixSums iss, ?_, ?_, ?_, ?_, ?_, ?_, ?_⟩
  · simp [planOffsets, hv]
  · simp [exclusivePrefixSums, hlo]
  · simp [exclusivePrefixSums, hli]
  · intro i hi
    exact exclusivePrefixSums_getElem? oss i (by omega)
  · intro i hi
    exact exclusivePrefixSums_getElem? iss i (by omega)
  · simpa using exclusivePrefixSums_getElem? oss 0 (by omega)
  · simpa using exclusivePrefixSums_getElem? iss 0 (by omega)

/-- Witness for C1 at a concrete valid request. -/
theorem planOffsets_exclusive_prefix_sums_witness :
    ∃ oOffs iOffs,
      planOffsets 2 [3, 5] [4, 6] 8 10 = .ok (oOffs, iOffs) ∧
      oOffs.length = 2 ∧ iOffs.length = 2 ∧
      (∀ i, i < 2 → oOffs[i]? = some (([3, 5].take i).sum)) ∧
      (∀ i, i < 2 → iOffs[i]? = some (([4, 6].take i).sum)) ∧
      oOffs[0]? = some 0 ∧ iOffs[0]? = some 0 :=
  planOffsets_exclusive_prefix_sums 2 [3, 5] [4, 6] 8 10
    (by decide) (by decide) (by decide) (by decide) (by decide) (by decide)

/-- **C2.** Every schedule the plan stage produces tiles the output
exactly — `round_count * elts_per_round = output_elts_total` (and the
input likewise) — and `elts_per_block` and `elts_per_block_per_round`
evenly divide their respective per-round totals. -/
theorem makeSchedule_tiles_exactly (ot it bs rc : ℕ) (s : Schedule)
    (h : makeSchedule ot it bs rc = .ok s) :
    s.round_count * s.elts_per_round = ot ∧
    s.round_count * s.input_elts_per_round = it ∧
    s.elts_per_block_per_round ∣ s.elts_per_round ∧
    s.elts_per_block ∣ s.input_elts_per_round := by
  simp only [makeSchedule] at h
  split at h
  next => cases h
  next h1 =>
  split at h
  next => cases h
  next h2 =>
  split at h
  next => cases h
  next h3 =>
  split at h
  next => cases h
  next h4 =>
  split at h
  next => cases h
  next h5 =>
  simp only [bne_iff_ne, ne_eq, not_not] at h2 h3 h4
  split at h
  next h6 =>
    injection h with h
    subst h
    simp only [beq_iff_eq] at h6
    rw [h6, Nat.zero_mul] at h4
    rw [← h4, Nat.mul_zero] at h2
    exact ⟨by simpa using h2, h3, dvd_zero _, dvd_refl _⟩
  next h6 =>
  split at h
  next => cases h
  next h7 =>
  injection h with h
  subst h
  simp only [bne_iff_ne, ne_eq, not_not] at h7
  exact ⟨h2, h3, Dvd.intro_left _ h4, Dvd.intro _ h7⟩

/-- Witness for C2 at a concrete accepted schedule. -/
theorem makeSchedule_tiles_exactly_witness :
    (⟨1, 1024, 2048, 1024, 512, 2⟩ : Schedule).round_count *
        (⟨1, 1024, 2048, 1024, 512, 2⟩ : Schedule).elts_per_round = 1024 ∧
    (⟨1, 1024, 2048, 1024, 512, 2⟩ : Schedule).round_count *
        (⟨1, 1024, 2048, 1024, 512, 2⟩ : Schedule).input_elts_per_round = 2048 ∧
    (⟨1, 1024, 2048, 1024, 512, 2⟩ : Schedule).elts_per_block_per_round ∣
        (⟨1, 1024, 2048, 1024, 512, 2⟩ : Schedule).elts_per_round ∧
    (⟨1, 1024, 2048, 1024, 512, 2⟩ : Schedule).elts_per_block ∣
        (⟨1, 1024, 2048, 1024, 512, 2⟩ : Schedule).input_elts_per_round :=
  makeSchedule_tiles_exactly 1024 2048 512 1 ⟨1, 1024, 2048, 1024, 512, 2⟩ rfl

/-- **C3.** A plan request whose `output_split_sizes` do not sum to
`output_elts_total` fails fast with a configuration error reported
synchronously to the caller, and the call performs no write into
peer-visible or device memory before aborting. -/
theorem mismatched_sum_fails_fast (r : ℕ) (oss iss : List ℕ)
    (ot it bs rc meta : ℕ) (hmis : oss.sum ≠ ot) :
    (runPlan r oss iss ot it bs rc meta).1 = .error .configError ∧
    (runPlan r oss iss ot it bs rc meta).2 = [] := by
  have hv : planRequestValid r oss iss ot it = false := by
    cases hb : planRequestValid r oss iss ot it
    · rfl
    · exfalso
      simp only [planRequestValid, Bool.and_eq_true, beq_iff_eq,
        decide_eq_true_eq] at hb
      exact hmis hb.1.2
  constructor <;> simp [runPlan, planOffsets, hv]

/-- Witness for C3 at a concrete mismatched request. -/
theorem mismatched_sum_fails_fast_witness :
    (runPlan 2 [1, 2] [2, 1] 4 3 512 1 100).1 = .error .configError ∧
    (runPlan 2 [1, 2] [2, 1] 4 3 512 1 100).2 = [] :=
  mismatched_sum_fails_fast 2 [1, 2] [2, 1] 4 3 512 1 100 (by decide)

/-- **C4.** For every rank count `r` with `1 ≤ r ≤ MAX_RANKS_PER_NODE`
and every assignment of element sequences, after a full exchange rank
`j`'s output buffer contains exactly rank `i`'s sequence at the offset the
plan computed for source rank `i`, for every ordered pair `(i, j)`. -/
theorem exchange_delivers (r : ℕ) (send : ℕ → ℕ → List ℤ) (i j : ℕ)
    (_hr1 : 1 ≤ r) (_hr2 : r ≤ MAX_RANKS_PER_NODE) (hi : i < r) (_hj : j < r) :
    ((outputBuffer r send j).drop
        ((exclusivePrefixSums (recvSizes r send j)).getD i 0)).take
      (send i j).length = send i j := by
  have hlen : (recvSizes r send j).length = r := by simp [recvSizes]
  have hget := exclusivePrefixSums_getElem? (recvSizes r send j) i (by omega)
  have hgd : (exclusivePrefixSums (recvSizes r send j)).getD i 0
      = ((recvSizes r send j).take i).sum := by
    simp [List.getD, hget]
  have htake : (recvSizes r send j).take i
      = (List.range i).map fun k => (send k j).length := by
    rw [recvSizes, ← List.map_take, List.take_range, Nat.min_eq_left (le_of_lt hi)]
  rw [hgd, htake]
  exact flatMap_range_drop_take (fun k => send k j) r i hi

/-- Witness for C4: the spec's concrete scenario — 4 ranks, rank `i`
sending the ten elements `i*100 + k`; rank 2's receive buffer holds rank
3's sequence at the offset the plan computed for source rank 3. -/
theorem exchange_delivers_witness :
    ((outputBuffer 4 demoSend 2).drop
        ((exclusivePrefixSums (recvSizes 4 demoSend 2)).getD 3 0)).take
      (demoSend 3 2).length = demoSend 3 2 :=
  exchange_delivers 4 demoSend 3 2 (by decide) (by decide) (by decide) (by decide)

/-- **C7.** The number of device blocks a schedule uses never exceeds
`MAX_ALL_TO_ALL_BLOCKS = 64`; a block count that would exceed the maximum
is a capacity error detected at schedule-construction time, fatal to the
call. -/
theorem makeSchedule_capacity (ot it bs rc : ℕ)
    (hrc : rc ≠ 0) (hbs : bs ≠ 0)
    (hot : rc * (ot / rc) = ot) (hit : rc * (it / rc) = it)
    (hdiv : ot / rc / bs * bs = ot / rc) :
    MAX_ALL_TO_ALL_BLOCKS = 64 ∧
    (∀ s : Schedule, makeSchedule ot it bs rc = .ok s →
      s.block_count ≤ MAX_ALL_TO_ALL_BLOCKS) ∧
    (MAX_ALL_TO_ALL_BLOCKS < ot / rc / bs →
      makeSchedule ot it bs rc = .error .capacityError) := by
  refine ⟨rfl, ?_, ?_⟩
  · intro s h
    simp only [makeSchedule] at h
    split at h
    next => cases h
    next h1 =>
    split at h
    next => cases h
    next h2 =>
    split at h
    next => cases h
    next h3 =>
    split at h
    next => cases h
    next h4 =>
    split at h
    next => cases h
    next h5 =>
    split at h
    next h6 =>
      injection h with h
      subst h
      exact Nat.zero_le _
    next h6 =>
    split at h
    next => cases h
    next h7 =>
    injection h with h
    subst h
    exact Nat.le_of_not_lt h5
  · intro hcap
    simp only [makeSchedule, hot, hit, hdiv, bne_self_eq_false, Bool.false_eq_true,
      if_false, if_pos hcap]
    simp [hrc, hbs]

/-- Witness for C7: 65 blocks' worth of output in one round is rejected
as a capacity error. -/
theorem makeSchedule_capacity_witness :
    MAX_ALL_TO_ALL_BLOCKS = 64 ∧
    (∀ s : Schedule, makeSchedule 33280 0 512 1 = .ok s →
      s.block_count ≤ MAX_ALL_TO_ALL_BLOCKS) ∧
    (MAX_ALL_TO_ALL_BLOCKS < 33280 / 1 / 512 →
      makeSchedule 33280 0 512 1 = .error .capacityError) :=
  makeSchedule_capacity 33280 0 512 1
    (by decide) (by decide) (by decide) (by decide) (by decide)

/-- **C8.** With `ranks_per_node = 1` the exchange degenerates to a local
copy of the input buffer into the output buffer and performs no peer
waits in any round. -/
theorem single_rank_local_copy (send : ℕ → ℕ → List ℤ) (round_count : ℕ) :
    outputBuffer 1 send 0 = inputBuffer 1 send 0 ∧
    outputBuffer 1 send 0 = send 0 0 ∧
    peerWaits 1 0 round_count = [] := by
  refine ⟨?_, ?_, ?_⟩
  · simp [outputBuffer, inputBuffer, List.range_succ]
  · simp [outputBuffer, List.range_succ]
  · simp [peerWaits, List.range_succ, List.flatMap_eq_nil_iff]

/-- **C5.** On barrier memory still holding flags from earlier
generations, no leftover flag is ever read as ready at the fresh
generation; the exchange at the fresh generation completes with the
correct output; and replaying the identical exchange at a yet newer
generation on the barrier memory the first call left behind produces the
same correct output. -/
theorem generation_replay (r round_count gen nextGen : ℕ) (mem : ℕ × ℕ → ℕ)
    (send : ℕ → ℕ → List ℤ) (j : ℕ)
    (hstale : ∀ s, mem s < gen) (hfresh : gen < nextGen) :
    (∀ p rd, p < r → rd < round_count → flagReady mem (p, rd) gen = false) ∧
    (runExchange r round_count gen mem send j).1 = some (outputBuffer r send j) ∧
    (∀ p rd, p < r → rd < round_count →
      flagReady (runExchange r round_count gen mem send j).2 (p, rd) nextGen = false) ∧
    (runExchange r round_count nextGen
        (runExchange r round_count gen mem send j).2 send j).1
      = some (outputBuffer r send j) := by
  refine ⟨?_, ?_, ?_, ?_⟩
  · intro p rd _ _
    have := hstale (p, rd)
    simp only [flagReady, beq_eq_false_iff_ne, ne_eq]
    omega
  · simp only [runExchange]
    rw [if_pos]
    simp only [List.all_eq_true, List.mem_range]
    intro p hp rd hrd
    simp [signalFlags, flagReady, hp, hrd]
  · intro p rd hp hrd
    simp only [runExchange, signalFlags, flagReady, hp, hrd, and_self, if_true,
      beq_eq_false_iff_ne, ne_eq]
    omega
  · simp only [runExchange]
    rw [if_pos]
    simp only [List.all_eq_true, List.mem_range]
    intro p hp rd hrd
    simp [signalFlags, flagReady, hp, hrd]

/-- Witness for C5 on concrete stale barrier memory. -/
theorem generation_replay_witness :
    flagReady (fun _ => 0) (0, 0) 1 = false ∧
    (runExchange 2 1 1 (fun _ => 0) (fun i _ => [(i : ℤ)]) 0).1
      = some (outputBuffer 2 (fun i _ => [(i : ℤ)]) 0) ∧
    flagReady (runExchange 2 1 1 (fun _ => 0) (fun i _ => [(i : ℤ)]) 0).2 (0, 0) 2
      = false ∧
    (runExchange 2 1 2 (runExchange 2 1 1 (fun _ => 0) (fun i _ => [(i : ℤ)]) 0).2
        (fun i _ => [(i : ℤ)]) 0).1
      = some (outputBuffer 2 (fun i _ => [(i : ℤ)]) 0) :=
  ⟨(generation_replay 2 1 1 2 (fun _ => 0) (fun i _ => [(i : ℤ)]) 0
      (fun _ => Nat.one_pos) Nat.one_lt_two).1 0 0 (by decide) (by decide),
   (generation_replay 2 1 1 2 (fun _ => 0) (fun i _ => [(i : ℤ)]) 0
      (fun _ => Nat.one_pos) Nat.one_lt_two).2.1,
   (generation_replay 2 1 1 2 (fun _ => 0) (fun i _ => [(i : ℤ)]) 0
      (fun _ => Nat.one_pos) Nat.one_lt_two).2.2.1 0 0 (by decide) (by decide),
   (generation_replay 2 1 1 2 (fun _ => 0) (fun i _ => [(i : ℤ)]) 0
      (fun _ => Nat.one_pos) Nat.one_lt_two).2.2.2⟩

/-- **C6.** Round-`rd` data from peer `p` is visible to a consumer only
behind an observation of peer `p`'s round-`rd` flag at the current
generation, and distinct rounds write disjoint per-round offset ranges of
the output, so round `r+1` never overwrites a region still being drained
by round `r`. -/
theorem round_visibility_and_disjoint_rounds
    (mem : ℕ × ℕ → ℕ) (gen p rd : ℕ) (data d : List ℤ)
    (elts_per_round rd1 rd2 : ℕ)
    (hview : consumerView mem gen p rd data = some d)
    (hne : rd1 ≠ rd2) :
    (flagReady mem (p, rd) gen = true ∧ d = data) ∧
    Disjoint (roundRange elts_per_round rd1) (roundRange elts_per_round rd2) := by
  constructor
  · unfold consumerView at hview
    split at hview
    next hf =>
      injection hview with hd
      exact ⟨hf, hd.symm⟩
    next => cases hview
  · rw [Finset.disjoint_left]
    intro x hx1 hx2
    simp only [roundRange, Finset.mem_Ico] at hx1 hx2
    rcases Nat.lt_or_ge rd1 rd2 with hlt | hge
    · have hle : (rd1 + 1) * elts_per_round ≤ rd2 * elts_per_round :=
        Nat.mul_le_mul_right _ hlt
      exact absurd (lt_of_lt_of_le (lt_of_lt_of_le hx1.2 hle) hx2.1) (lt_irrefl x)
    · have hlt2 : rd2 + 1 ≤ rd1 := by omega
      have hle : (rd2 + 1) * elts_per_round ≤ rd1 * elts_per_round :=
        Nat.mul_le_mul_right _ hlt2
      exact absurd (lt_of_lt_of_le (lt_of_lt_of_le hx2.2 hle) hx1.1) (lt_irrefl x)

/-- Witness for C6 at a concrete observed flag and round pair. -/
theorem round_visibility_and_disjoint_rounds_witness :
    (flagReady (fun _ => 5) (1, 0) 5 = true ∧ ([7] : List ℤ) = [7]) ∧
    Disjoint (roundRange 10 0) (roundRange 10 1) :=
  round_visibility_and_disjoint_rounds (fun _ => 5) 5 1 0 [7] [7] 10 0 1
    (by decide) (by decide)

/-- **C9.** The barrier generation counter is a `uint32_t` in both
`All2AllParams` and `All2AllPlanParams`, so generations are only
distinguishable modulo `2^32`: a counter value `2^32` generations newer
stores the same flag, and a reader cannot tell the two apart. -/
theorem barrier_flag_uint32_wraps (p : All2AllParams) (q : All2AllPlanParams)
    (mem : ℕ × ℕ → ℕ) (slot : ℕ × ℕ) (g : ℕ) :
    (p.setBarrierFlag (g + 2 ^ 32)).barrier_flag = (p.setBarrierFlag g).barrier_flag ∧
    (q.setBarrierFlag (g + 2 ^ 32)).barrier_flag = (q.setBarrierFlag g).barrier_flag ∧
    storeBarrierFlag (g + 2 ^ 32) = storeBarrierFlag g ∧
    flagReady mem slot (storeBarrierFlag (g + 2 ^ 32))
      = flagReady mem slot (storeBarrierFlag g) := by
  have hs : storeBarrierFlag (g + 2 ^ 32) = storeBarrierFlag g := by
    simp [storeBarrierFlag, UINT32_MOD, Nat.add_mod_right]
  refine ⟨?_, ?_, hs, by rw [hs]⟩ <;>
    simp only [All2AllParams.setBarrierFlag, All2AllPlanParams.setBarrierFlag, hs]

/-- **C10.** In a matched plan/exchange parameter pair the plan stage's
`block_size` is exactly 16 times the exchange stage's `block_size`. -/
theorem matched_block_sizes_ratio (pp : All2AllPlanParams) (ep : All2AllParams)
    (h : matchedBlockSizes pp ep) : pp.block_size = 16 * ep.block_size := by
  obtain ⟨b, hp, he⟩ := h
  cases b <;> rw [hp, he] <;> rfl

/-- Witness for C10 at the concrete matched pair. -/
theorem matched_block_sizes_ratio_witness :
    matchedBlockSizes demoPlanParams demoExchangeParams ∧
    demoPlanParams.block_size = 16 * demoExchangeParams.block_size :=
  ⟨⟨false, rfl, rfl⟩,
   matched_block_sizes_ratio demoPlanParams demoExchangeParams ⟨false, rfl, rfl⟩⟩

end TrtLlm
